import Mathlib

/-!
Shallow embedding of the NSS bridging core of ubuntu/authd, vendored crate
`libnss` (files `src/vendor_rust/libnss/src/interop.rs`, `passwd.rs`,
`host.rs`).

Modelling conventions:
* machine memory handed over by the C caller (`buf`, `buflen`) is a
  `List Nat` of byte values; a C address inside the buffer is its offset
  from the start of the region, so `CBuffer.start` is implicitly `0` and
  the region length is `data.length`;
* a Rust `String` / `&str` is its byte sequence, `List Nat`;
* `std::io::Error` is identified with its `raw_os_error()` payload,
  `Option Int` — the only shape the crate ever inspects;
* a Rust panic (the crate's `.expect` on `CString::new`) is an explicit
  `panic` outcome, since a panic crossing the `extern "C"` boundary kills
  the hosting process rather than returning a status;
* out-parameters (`*mut CPasswd`, `*mut c_int` …) are modelled by
  explicit state passing: each entry point takes the current value and
  returns the updated one.
-/

namespace Authd

/-- `libc` constants used by the crate (Linux values). -/
def ENOENT : Int := 2

/-- `libc::ERANGE`, "result too large". -/
def ERANGE : Int := 34

/-- `libc::AF_INET`. -/
def AF_INET : Int := 2

/-- `libc::AF_INET6`. -/
def AF_INET6 : Int := 10

/-- `libc::AF_UNSPEC`. -/
def AF_UNSPEC : Int := 0

/-- `interop.rs` `NssStatus` (the ABI status codes). -/
inductive NssStatus where
  | TryAgain
  | Unavail
  | NotFound
  | Success
  | Return
deriving DecidableEq, Repr

/-- The `as c_int` view of `NssStatus` (discriminant values from `interop.rs`). -/
def NssStatus.toInt : NssStatus → Int
  | .TryAgain => -2
  | .Unavail => -1
  | .NotFound => 0
  | .Success => 1
  | .Return => 2

/-- `interop.rs` `Response<R>`. -/
inductive Response (R : Type) where
  | TryAgain
  | Unavail
  | NotFound
  | Success (entity : R)
  | Return
deriving DecidableEq, Repr

/-- `Response::to_status` from `interop.rs`. -/
def Response.to_status {R : Type} : Response R → NssStatus
  | .Success _ => .Success
  | .TryAgain => .TryAgain
  | .Unavail => .Unavail
  | .NotFound => .NotFound
  | .Return => .Return

/-- A `std::io::Error` as the crate observes it: its `raw_os_error()`. -/
abbrev IoError : Type := Option Int

/-- The error `io::Error::from_raw_os_error(libc::ERANGE)` produced by the
buffer on a capacity failure. -/
def capacityError : IoError := some ERANGE

/-- An `io::Error` carrying no OS error code (`raw_os_error() == None`). -/
def noOsCodeError : IoError := none

/-- `interop.rs` `CBuffer`: the bump allocator over the caller's region.
`pos` is the offset of the write position from the start of the region;
`free` the remaining byte count; `data` the bytes of the whole region
(the source keeps `start`/`len` raw-pointer fields instead, which in the
offset view are `0` and `data.length`). -/
structure CBuffer where
  data : List Nat
  pos : Nat
  free : Nat
deriving DecidableEq, Repr

/-- Overwrite `data[pos]`, `data[pos+1]`, … with `bytes` (a `memcpy` into
the region; `List.set` ignores out-of-range writes, which the source's
capacity check prevents from arising). -/
def writeBytes (data : List Nat) (pos : Nat) : List Nat → List Nat
  | [] => data
  | b :: bs => writeBytes (data.set pos b) (pos + 1) bs

/-- `CBuffer::new(ptr, len)` over a caller region holding bytes `mem`. -/
def CBuffer.new (mem : List Nat) : CBuffer :=
  { data := mem, pos := 0, free := mem.length }

/-- `CBuffer::clear`: `memset(start, 0, len)`. -/
def CBuffer.clear (b : CBuffer) : CBuffer :=
  { b with data := List.replicate b.data.length 0 }

/-- Result of one buffer primitive: the returned value and the buffer
after the call, a capacity-style failure with the buffer after the call,
or a Rust panic. -/
inductive WRes (α : Type) where
  | ok (a : α) (b : CBuffer)
  | err (e : IoError) (b : CBuffer)
  | panic
deriving DecidableEq, Repr

/-- `CBuffer::write_str` from `interop.rs`.

The source first converts through `CString::new(string).expect(…)`, which
panics when the string has an interior NUL byte; then `strlen` of the
C string (= the byte length, NUL-free case); then the capacity check
`free < len + 1`; on success a `memcpy` of `len` bytes — the terminator
byte at `pos + len` is *not* written, the position merely steps over it —
then `pos` advances and `free` shrinks by `len + 1`, returning the start
offset. -/
def CBuffer.write_str (b : CBuffer) (s : List Nat) : WRes Nat :=
  if 0 ∈ s then
    .panic
  else
    let len := s.length
    if b.free < len + 1 then
      .err capacityError b
    else
      .ok b.pos
        { data := writeBytes b.data b.pos s
          pos := b.pos + (len + 1)
          free := b.free - (len + 1) }

/-- `CBuffer::reserve` from `interop.rs`: advance over `len` bytes without
initialising them, after the capacity check `free < len`. -/
def CBuffer.reserve (b : CBuffer) (len : Nat) : WRes Nat :=
  if b.free < len then
    .err capacityError b
  else
    .ok b.pos { b with pos := b.pos + len, free := b.free - len }

/-- Size of `*mut c_char` on the target (64-bit): `ptr_size` in the source. -/
def ptrSize : Nat := 8

/-- Little-endian byte image of an address value, as written into the
region by `pos.write(ptr)` for a pointer-sized slot. -/
def ptrBytes (addr : Nat) : List Nat :=
  (List.range ptrSize).map (fun i => addr / 256 ^ i % 256)

/-- `CBuffer::write_strs` from `interop.rs`: reserve
`ptr_size * (len(list)+1)` bytes for the pointer array, then write each
string with `write_str`, storing its start address into the next slot of
the array, and finally `memset` one pointer-sized slot to zero. The
recursion over the remaining strings carries the offset of the next array
slot (`pos` in the source). -/
def CBuffer.writeStrsLoop (b : CBuffer) (slot : Nat) : List (List Nat) → WRes Unit
  | [] =>
      .ok () { b with data := writeBytes b.data slot (List.replicate ptrSize 0) }
  | s :: rest =>
      match b.write_str s with
      | .panic => .panic
      | .err e b => .err e b
      | .ok a b =>
          CBuffer.writeStrsLoop
            { b with data := writeBytes b.data slot (ptrBytes a) }
            (slot + ptrSize) rest

/-- `CBuffer::write_strs`, entry: returns the start address of the
pointer array. -/
def CBuffer.write_strs (b : CBuffer) (strs : List (List Nat)) : WRes Nat :=
  match b.reserve (ptrSize * (strs.length + 1)) with
  | .panic => .panic
  | .err e b => .err e b
  | .ok vecStart b =>
      match b.writeStrsLoop vecStart strs with
      | .panic => .panic
      | .err e b => .err e b
      | .ok _ b => .ok vecStart b

/-- Result of marshaling a record into the C output struct (`ToC::to_c`):
the struct is mutated in place in the source, so failure also carries the
partially written struct and buffer. -/
inductive MarshalRes (C : Type) where
  | ok (c : C) (b : CBuffer)
  | err (e : IoError) (c : C) (b : CBuffer)
  | panic
deriving DecidableEq, Repr

/-- A marshaling function `ToC<C> for R`: record, output struct being
mutated, buffer. -/
def Marshal (R C : Type) : Type := R → C → CBuffer → MarshalRes C

/-- `Response::to_c` from `interop.rs`, generic over the record's
marshaler (the `R: ToC<C>` bound). Inputs: the response, the output
struct `result`, the caller region bytes `mem` (the `buf`/`buflen` pair),
and the current `*errnop` value. Output `none` models a
panic escaping the call; otherwise the status, the struct, the region
bytes, and the errno after the call.

On `Success` the buffer is rebuilt from the raw region and cleared, then
the entity is marshaled: `Ok` yields `errno = 0` and the success status;
an error with an OS code `e` yields status `TryAgain` with `errno = e`;
an error without an OS code yields `Unavail` with `errno = ENOENT`. Any
non-`Success` response returns its own status and touches nothing. -/
def Response.to_c {R C : Type} (m : Marshal R C) (resp : Response R)
    (result : C) (mem : List Nat) (errno : Int) :
    Option (NssStatus × C × List Nat × Int) :=
  match resp with
  | .Success entity =>
      match m entity result (CBuffer.new mem).clear with
      | .ok c b => some (Response.to_status (.Success entity : Response R), c, b.data, 0)
      | .err e c b =>
          match e with
          | some k => some ((Response.TryAgain : Response R).to_status, c, b.data, k)
          | none => some ((Response.Unavail : Response R).to_status, c, b.data, ENOENT)
      | .panic => none
  | _ => some (resp.to_status, result, mem, errno)

/-! ### The enumeration cursor (`interop.rs` `Iterator<T>`) -/

/-- `interop.rs` `Iterator<T>`: an optional materialised sequence plus a
position (the `VecDeque` is only ever indexed, so a list is faithful). -/
structure NssIterator (T : Type) where
  items : Option (List T)
  index : Nat
deriving DecidableEq, Repr

/-- `Iterator::new`. -/
def NssIterator.new {T : Type} : NssIterator T := { items := none, index := 0 }

/-- `Iterator::open` (named `openIt` because `open` is reserved in Lean):
installs the list, resets the position, always reports `Success`. -/
def NssIterator.openIt {T : Type} (_ : NssIterator T) (xs : List T) :
    NssIterator T × NssStatus :=
  ({ items := some xs, index := 0 }, .Success)

/-- `Iterator::next`: reads the current slot, then *unconditionally*
increments the position (`self.index += 1` runs on every path). -/
def NssIterator.next {T : Type} (it : NssIterator T) : Response T × NssIterator T :=
  let response : Response T :=
    match it.items with
    | some items =>
        match items[it.index]? with
        | some entity => .Success entity
        | none => .NotFound
    | none => .Unavail
  (response, { it with index := it.index + 1 })

/-- `Iterator::previous`: decrement, guarded at zero. -/
def NssIterator.previous {T : Type} (it : NssIterator T) : NssIterator T :=
  if it.index > 0 then { it with index := it.index - 1 } else it

/-- `Iterator::close`. -/
def NssIterator.close {T : Type} (_ : NssIterator T) : NssIterator T × NssStatus :=
  ({ items := none, index := 0 }, .Success)

/-! ### Passwd records (`passwd.rs`) -/

/-- `passwd.rs` `Passwd`: the backend record. Strings are byte lists. -/
structure Passwd where
  name : List Nat
  passwd : List Nat
  uid : Nat
  gid : Nat
  gecos : List Nat
  dir : List Nat
  shell : List Nat
deriving DecidableEq, Repr

/-- `passwd.rs` `CPasswd` (Linux layout): string fields hold buffer
offsets standing for the `*mut c_char` values. -/
structure CPasswd where
  name : Nat
  passwd : Nat
  uid : Nat
  gid : Nat
  gecos : Nat
  dir : Nat
  shell : Nat
deriving DecidableEq, Repr

/-- `ToC<CPasswd> for Passwd` from `passwd.rs`: five `write_str` calls in
source order, with the scalar `uid`/`gid` stores between `passwd` and
`gecos`; the `?` operator propagates the first failure, leaving the
struct fields written so far in place. -/
def Passwd.to_c (p : Passwd) (result : CPasswd) (b : CBuffer) : MarshalRes CPasswd :=
  match b.write_str p.name with
  | .panic => .panic
  | .err e b => .err e result b
  | .ok a b =>
  let result := { result with name := a }
  match b.write_str p.passwd with
  | .panic => .panic
  | .err e b => .err e result b
  | .ok a b =>
  let result := { result with passwd := a, uid := p.uid, gid := p.gid }
  match b.write_str p.gecos with
  | .panic => .panic
  | .err e b => .err e result b
  | .ok a b =>
  let result := { result with gecos := a }
  match b.write_str p.dir with
  | .panic => .panic
  | .err e b => .err e result b
  | .ok a b =>
  let result := { result with dir := a }
  match b.write_str p.shell with
  | .panic => .panic
  | .err e b => .err e result b
  | .ok a b =>
  .ok { result with shell := a } b

/-! ### UTF-8 validation (`str::from_utf8` on the C string's bytes) -/

/-- A UTF-8 continuation byte, `0x80 ..= 0xBF`. -/
def contByte (c : Nat) : Bool := 0x80 ≤ c && c ≤ 0xBF

/-- Validity of a byte sequence as UTF-8, the check performed by
`str::from_utf8` in the entry points (RFC 3629 table: ASCII; 2-byte
`C2..DF`; 3-byte with the `E0`/`ED` surrogate exclusions; 4-byte with the
`F0`/`F4` range limits). -/
def validUtf8 : List Nat → Bool
  | [] => true
  | c0 :: rest =>
      if c0 ≤ 0x7F then
        validUtf8 rest
      else if 0xC2 ≤ c0 && c0 ≤ 0xDF then
        match rest with
        | c1 :: rest => contByte c1 && validUtf8 rest
        | [] => false
      else if c0 = 0xE0 then
        match rest with
        | c1 :: c2 :: rest => (0xA0 ≤ c1 && c1 ≤ 0xBF) && contByte c2 && validUtf8 rest
        | _ => false
      else if (0xE1 ≤ c0 && c0 ≤ 0xEC) || c0 = 0xEE || c0 = 0xEF then
        match rest with
        | c1 :: c2 :: rest => contByte c1 && contByte c2 && validUtf8 rest
        | _ => false
      else if c0 = 0xED then
        match rest with
        | c1 :: c2 :: rest => (0x80 ≤ c1 && c1 ≤ 0x9F) && contByte c2 && validUtf8 rest
        | _ => false
      else if c0 = 0xF0 then
        match rest with
        | c1 :: c2 :: c3 :: rest =>
            (0x90 ≤ c1 && c1 ≤ 0xBF) && contByte c2 && contByte c3 && validUtf8 rest
        | _ => false
      else if 0xF1 ≤ c0 && c0 ≤ 0xF3 then
        match rest with
        | c1 :: c2 :: c3 :: rest =>
            contByte c1 && contByte c2 && contByte c3 && validUtf8 rest
        | _ => false
      else if c0 = 0xF4 then
        match rest with
        | c1 :: c2 :: c3 :: rest =>
            (0x80 ≤ c1 && c1 ≤ 0x8F) && contByte c2 && contByte c3 && validUtf8 rest
        | _ => false
      else false

/-! ### Passwd entry points (the `libnss_passwd_hooks!` expansion) -/

/-- `_nss_authd_getpwent_r`: advance the shared cursor, convert the
response, and rewind the cursor when the converted status is `TryAgain`.
Returns the call outcome (`none` = escaped panic) and the cursor after
the call. -/
def getpwent_r (it : NssIterator Passwd) (result : CPasswd)
    (mem : List Nat) (errno : Int) :
    Option (NssStatus × CPasswd × List Nat × Int) × NssIterator Passwd :=
  let step := it.next
  match Response.to_c Passwd.to_c step.1 result mem errno with
  | none => (none, step.2)
  | some (st, c, m, e) =>
      (some (st, c, m, e), if st = .TryAgain then step.2.previous else step.2)

/-- `_nss_authd_getpwnam_r`, over the backend capability
`get_entry_by_name`. The input `name` is the C string's bytes (NUL
excluded); invalid UTF-8 short-circuits to `NotFound` before the backend
runs. The second component lists the keys the backend was invoked with. -/
def getpwnam_r (hooks : List Nat → Response Passwd) (name : List Nat)
    (result : CPasswd) (mem : List Nat) (errno : Int) :
    Option (NssStatus × CPasswd × List Nat × Int) × List (List Nat) :=
  if validUtf8 name then
    (Response.to_c Passwd.to_c (hooks name) result mem errno, [name])
  else
    (Response.to_c Passwd.to_c (.NotFound : Response Passwd) result mem errno, [])

/-! ### Host records (`host.rs`) -/

/-- `host.rs` `AddressFamily`. -/
inductive AddressFamily where
  | IPv4
  | IPv6
  | Unspecified
deriving DecidableEq, Repr

/-- `host.rs` `Addresses`: per-family address lists; each address is its
octet sequence (4 bytes for `Ipv4Addr`, 16 for `Ipv6Addr`). -/
inductive Addresses where
  | V4 (addrs : List (List Nat))
  | V6 (addrs : List (List Nat))
deriving DecidableEq, Repr

/-- `host.rs` `Host`. -/
structure Host where
  name : List Nat
  aliases : List (List Nat)
  addresses : Addresses
deriving DecidableEq, Repr

/-- `std::net::IpAddr` as consumed by `get_host_by_addr`. -/
inductive IpAddr where
  | V4 (octets : List Nat)
  | V6 (octets : List Nat)
deriving DecidableEq, Repr

/-- `host.rs` `CHost` (`struct hostent`): pointer fields hold buffer
offsets. -/
structure CHost where
  name : Nat
  h_aliases : Nat
  h_addrtype : Int
  h_length : Int
  h_addr_list : Nat
deriving DecidableEq, Repr

/-- The per-address loop of `Host::to_c` (identical source bodies for the
V4 and V6 arms, differing only in `addr_len`): for each address, reserve
`addr_len` bytes, `memcpy` the octets there, store the address into the
current slot of the pointer array, advance the slot; afterwards
`memset(array_pos, 0, 1)` — the source zeroes a single byte of the
terminating slot. -/
def CBuffer.writeAddrLoop (b : CBuffer) (slot : Nat) (addrLen : Nat) :
    List (List Nat) → WRes Unit
  | [] => .ok () { b with data := writeBytes b.data slot [0] }
  | o :: rest =>
      match b.reserve addrLen with
      | .panic => .panic
      | .err e b => .err e b
      | .ok ptr b =>
          let b := { b with data := writeBytes b.data ptr (o.take addrLen) }
          CBuffer.writeAddrLoop
            { b with data := writeBytes b.data slot (ptrBytes ptr) }
            (slot + ptrSize) addrLen rest

/-- `ToC<CHost> for Host` from `host.rs`: name, alias array, family
tag/length scalars, the reserved pointer array, then the address loop. -/
def Host.to_c (h : Host) (hostent : CHost) (b : CBuffer) : MarshalRes CHost :=
  match b.write_str h.name with
  | .panic => .panic
  | .err e b => .err e hostent b
  | .ok a b =>
  let hostent := { hostent with name := a }
  match b.write_strs h.aliases with
  | .panic => .panic
  | .err e b => .err e hostent b
  | .ok al b =>
  let hostent := { hostent with h_aliases := al }
  let addrs := match h.addresses with | .V4 l => l | .V6 l => l
  let addrLen : Nat := match h.addresses with | .V4 _ => 4 | .V6 _ => 16
  let hostent :=
    match h.addresses with
    | .V4 _ => { hostent with h_addrtype := AF_INET, h_length := 4 }
    | .V6 _ => { hostent with h_addrtype := AF_INET6, h_length := 16 }
  match b.reserve (ptrSize * (addrs.length + 1)) with
  | .panic => .panic
  | .err e b => .err e hostent b
  | .ok arrayPos b =>
  let hostent := { hostent with h_addr_list := arrayPos }
  match b.writeAddrLoop arrayPos addrLen addrs with
  | .panic => .panic
  | .err e b => .err e hostent b
  | .ok _ b => .ok hostent b

/-! ### Host entry points (the `libnss_host_hooks!` expansion) -/

/-- `Herrno` sentinels from the macro body
(`netdb.h` values used by the legacy `h_errno` channel). -/
def Herrno.netDbInternal : Int := -1

/-- `Herrno::NetDbSuccess`. -/
def Herrno.netDbSuccess : Int := 0

/-- `Herrno::TryAgain`. -/
def Herrno.tryAgain : Int := 2

/-- `Herrno::NoRecovery`. -/
def Herrno.noRecovery : Int := 3

/-- `Herrno::NoData`. -/
def Herrno.noData : Int := 4

/-- The family `match` inside `_nss_authd_gethostbyname2_r` (source lines
257–270): explicit `AF_INET`/`AF_INET6` query that family only;
`AF_UNSPEC` queries IPv4 and, exactly when that returns `NotFound`,
queries IPv6; any other family sets `h_errno` to `NoRecovery` and yields
`Unavail` without a backend call. The last component records, in order,
the families the backend capability was invoked with. -/
def hostDispatch (hooks : List Nat → AddressFamily → Response Host)
    (name : List Nat) (family : Int) (h_errno : Int) :
    Response Host × Int × List AddressFamily :=
  if family = AF_INET then
    (hooks name .IPv4, h_errno, [.IPv4])
  else if family = AF_INET6 then
    (hooks name .IPv6, h_errno, [.IPv6])
  else if family = AF_UNSPEC then
    match hooks name .IPv4 with
    | .NotFound => (hooks name .IPv6, h_errno, [.IPv4, .IPv6])
    | val => (val, h_errno, [.IPv4])
  else
    (.Unavail, Herrno.noRecovery, [])

/-- The `h_errno` written after conversion in `gethostbyname2` (source
lines 273–289). -/
def herrnoOfStatus (st : NssStatus) : Int :=
  match st with
  | .Success => Herrno.netDbSuccess
  | .TryAgain => Herrno.tryAgain
  | .Unavail => Herrno.noRecovery
  | .NotFound => Herrno.noData
  | _ => Herrno.netDbInternal

/-- `_nss_authd_gethostbyname2_r`. Invalid UTF-8 in the name yields
`NotFound` directly, leaving `errno`, `h_errno`, the struct and the
region untouched and calling no backend. Otherwise the family dispatch
runs, the response is converted with `Response::to_c`, and `h_errno` is
rewritten from the resulting status. `none` models an escaped panic. -/
def gethostbyname2_r (hooks : List Nat → AddressFamily → Response Host)
    (name : List Nat) (family : Int) (result : CHost)
    (mem : List Nat) (errno h_errno : Int) :
    Option (NssStatus × CHost × List Nat × Int × Int) × List AddressFamily :=
  if validUtf8 name then
    let (resp, _h1, calls) := hostDispatch hooks name family h_errno
    match Response.to_c Host.to_c resp result mem errno with
    | none => (none, calls)
    | some (st, c, m, e) => (some (st, c, m, e, herrnoOfStatus st), calls)
  else
    (some (.NotFound, result, mem, errno, h_errno), [])

/-- `_nss_authd_gethostbyname_r`: delegates to `gethostbyname2` with
`AF_UNSPEC`. -/
def gethostbyname_r (hooks : List Nat → AddressFamily → Response Host)
    (name : List Nat) (result : CHost) (mem : List Nat) (errno h_errno : Int) :
    Option (NssStatus × CHost × List Nat × Int × Int) × List AddressFamily :=
  gethostbyname2_r hooks name AF_UNSPEC result mem errno h_errno

/-- `_nss_authd_gethostbyaddr_r`. `h_errno` is first set to
`NetDbInternal`; then the `(len, format)` pair must be exactly
`(4, AF_INET)` or `(16, AF_INET6)` — anything else returns `NotFound`
with no backend call. On a successful backend response `h_errno` becomes
`NetDbSuccess` before conversion. The last component lists the addresses
the backend was invoked with. -/
def gethostbyaddr_r (hooks : IpAddr → Response Host) (addr : List Nat)
    (len : Nat) (format : Int) (result : CHost) (mem : List Nat)
    (errno _h_errno : Int) :
    Option (NssStatus × CHost × List Nat × Int × Int) × List IpAddr :=
  let h1 := Herrno.netDbInternal
  if len = 4 ∧ format = AF_INET then
    let a : IpAddr := .V4 (addr.take 4)
    let resp := hooks a
    let h2 := match resp with
      | .Success _ => Herrno.netDbSuccess
      | _ => h1
    match Response.to_c Host.to_c resp result mem errno with
    | none => (none, [a])
    | some (st, c, m, e) => (some (st, c, m, e, h2), [a])
  else if len = 16 ∧ format = AF_INET6 then
    let a : IpAddr := .V6 (addr.take 16)
    let resp := hooks a
    let h2 := match resp with
      | .Success _ => Herrno.netDbSuccess
      | _ => h1
    match Response.to_c Host.to_c resp result mem errno with
    | none => (none, [a])
    | some (st, c, m, e) => (some (st, c, m, e, h2), [a])
  else
    (some (.NotFound, result, mem, errno, h1), [])

/-! ### Cursor traces (for reachability statements)

`IterOp` is one call of the cursor protocol; a trace is a list of calls
replayed from `Iterator::new`, which is exactly the set of cursor states
the entry points can produce. -/

/-- One cursor call. -/
inductive IterOp (T : Type) where
  | openOp (xs : List T)
  | nextOp
  | prevOp
  | closeOp
deriving DecidableEq, Repr

/-- State after one cursor call (return values discarded). -/
def applyOp {T : Type} (it : NssIterator T) : IterOp T → NssIterator T
  | .openOp xs => (it.openIt xs).1
  | .nextOp => (it.next).2
  | .prevOp => it.previous
  | .closeOp => (it.close).1

/-- One cursor call while also counting the `next` calls that returned a
non-`Success` response (the calls made on an exhausted or closed
cursor). -/
def stepCount {T : Type} (s : NssIterator T × Nat) (op : IterOp T) :
    NssIterator T × Nat :=
  match op with
  | .nextOp =>
      let r := s.1.next
      (r.2, match r.1 with | .Success _ => s.2 | _ => s.2 + 1)
  | op => (applyOp s.1 op, s.2)

/-- Replay a trace, carrying the non-`Success` `next` count. -/
def runTrace {T : Type} (s : NssIterator T × Nat) : List (IterOp T) → NssIterator T × Nat
  | [] => s
  | op :: ops => runTrace (stepCount s op) ops

/-- Length of the currently held record sequence (`0` when closed). -/
def seqLen {T : Type} (it : NssIterator T) : Nat := (it.items.getD []).length

/-- Cursor state after `n` successive `next` calls. -/
def iterNexts {T : Type} (it : NssIterator T) : Nat → NssIterator T
  | 0 => it
  | n + 1 => iterNexts (it.next).2 n

/-- Response of the `(n+1)`-st `next` call (zero-based). -/
def nthNextResp {T : Type} (it : NssIterator T) (n : Nat) : Response T :=
  ((iterNexts it n).next).1

/-! ### Helper lemmas -/

theorem writeBytes_length (bs d : List Nat) (p : Nat) :
    (writeBytes d p bs).length = d.length := by
  induction bs generalizing d p with
  | nil => rfl
  | cons c bs ih => simp [writeBytes, ih, List.length_set]

theorem writeBytes_getElem_lt (bs d : List Nat) (p j : Nat) (h : j < p) :
    (writeBytes d p bs)[j]? = d[j]? := by
  induction bs generalizing d p with
  | nil => rfl
  | cons c bs ih =>
      rw [writeBytes, ih _ _ (Nat.lt_succ_of_lt h),
        List.getElem?_set_ne (Nat.ne_of_gt h)]

theorem writeBytes_getElem_ge (bs d : List Nat) (p j : Nat)
    (h : p + bs.length ≤ j) : (writeBytes d p bs)[j]? = d[j]? := by
  induction bs generalizing d p with
  | nil => rfl
  | cons c bs ih =>
      have h1 : p + 1 + bs.length ≤ j := by simp at h; omega
      have h2 : p ≠ j := by simp at h; omega
      rw [writeBytes, ih _ _ h1, List.getElem?_set_ne h2]

theorem writeBytes_getElem_in (bs d : List Nat) (p i : Nat)
    (hi : i < bs.length) (hd : p + i < d.length) :
    (writeBytes d p bs)[p + i]? = bs[i]? := by
  induction bs generalizing d p i with
  | nil => cases hi
  | cons c bs ih =>
      cases i with
      | zero =>
          simp only [Nat.add_zero]
          rw [writeBytes, writeBytes_getElem_lt bs _ (p + 1) p (Nat.lt_succ_self p)]
          simpa using List.getElem?_set_eq_of_lt c (by simpa using hd)
      | succ i =>
          have h1 : p + (i + 1) = (p + 1) + i := by omega
          rw [writeBytes, h1,
            ih (d.set p c) (p + 1) i (by simpa using hi)
              (by rw [List.length_set]; omega)]
          simp

/-- Every failure of `write_str` is the capacity failure, and it leaves
the buffer untouched. -/
theorem write_str_err_eq (b : CBuffer) (s : List Nat) (e : IoError)
    (b' : CBuffer) (h : b.write_str s = .err e b') :
    e = capacityError ∧ b' = b := by
  simp only [CBuffer.write_str] at h
  split at h
  · exact WRes.noConfusion h
  · split at h
    · cases h
      exact ⟨rfl, rfl⟩
    · exact WRes.noConfusion h

/-- Every failure of `Passwd::to_c` is the capacity failure (it is built
from `write_str` alone). -/
theorem passwd_to_c_err (p : Passwd) (res : CPasswd) (b : CBuffer)
    (e : IoError) (c : CPasswd) (b' : CBuffer)
    (h : Passwd.to_c p res b = .err e c b') : e = capacityError := by
  rw [Passwd.to_c] at h
  split at h
  · exact MarshalRes.noConfusion h
  case h_2 e1 b1 heq =>
    cases h
    exact (write_str_err_eq _ _ _ _ heq).1
  case h_3 a b1 heq =>
    split at h
    · exact MarshalRes.noConfusion h
    case h_2 e2 b2 heq2 =>
      cases h
      exact (write_str_err_eq _ _ _ _ heq2).1
    case h_3 a2 b2 heq2 =>
      split at h
      · exact MarshalRes.noConfusion h
      case h_2 e3 b3 heq3 =>
        cases h
        exact (write_str_err_eq _ _ _ _ heq3).1
      case h_3 a3 b3 heq3 =>
        split at h
        · exact MarshalRes.noConfusion h
        case h_2 e4 b4 heq4 =>
          cases h
          exact (write_str_err_eq _ _ _ _ heq4).1
        case h_3 a4 b4 heq4 =>
          split at h
          · exact MarshalRes.noConfusion h
          case h_2 e5 b5 heq5 =>
            cases h
            exact (write_str_err_eq _ _ _ _ heq5).1
          case h_3 a5 b5 heq5 => exact MarshalRes.noConfusion h

theorem iterNexts_items_index {T : Type} (it : NssIterator T) (n : Nat) :
    (iterNexts it n).items = it.items ∧ (iterNexts it n).index = it.index + n := by
  induction n generalizing it with
  | zero => exact ⟨rfl, rfl⟩
  | succ n ih =>
      obtain ⟨h1, h2⟩ := ih (it.next).2
      refine ⟨h1, ?_⟩
      rw [iterNexts, h2]
      simp [NssIterator.next]
      omega

theorem runTrace_invariant {T : Type} (ops : List (IterOp T))
    (s : NssIterator T × Nat) (h : s.1.index ≤ seqLen s.1 + s.2) :
    (runTrace s ops).1.index ≤ seqLen (runTrace s ops).1 + (runTrace s ops).2 := by
  induction ops generalizing s with
  | nil => exact h
  | cons op ops ih =>
      rw [runTrace]
      refine ih _ ?_
      cases op with
      | openOp xs => exact Nat.zero_le _
      | closeOp => exact Nat.zero_le _
      | prevOp =>
          simp only [stepCount, applyOp, NssIterator.previous, seqLen]
          split
          all_goals simp_all [seqLen]
          all_goals omega
      | nextOp =>
          simp only [stepCount, NssIterator.next, seqLen] at h ⊢
          cases hit : s.1.items with
          | none => simp_all [seqLen]
          | some items =>
              simp only [hit, Option.getD_some] at h ⊢
              cases hget : items[s.1.index]? with
              | some x =>
                  have := (List.getElem?_eq_some.mp hget).1
                  simp only [hget]
                  omega
              | none =>
                  simp only [hget]
                  omega

/-! ### Claims -/

/-- C10: the host get-by-name entry point without a family selector
(`_nss_authd_gethostbyname_r`) returns exactly the same status and the
same output-parameter writes as the family-selecting entry point
(`_nss_authd_gethostbyname2_r`) invoked with the unspecified family, for
every name, output struct, buffer and errno/h_errno value. -/
theorem gethostbyname_delegates_unspec
    (hooks : List Nat → AddressFamily → Response Host) (name : List Nat)
    (result : CHost) (mem : List Nat) (errno h_errno : Int) :
    gethostbyname_r hooks name result mem errno h_errno =
      gethostbyname2_r hooks name AF_UNSPEC result mem errno h_errno := rfl

/-- C5 (amended): converting any non-`Success` outcome returns the
variant's own status code and leaves the errno output parameter (and the
struct and the buffer) unchanged — no "no such entry" sentinel is
written. -/
theorem non_success_status_errno_unchanged {R C : Type} (m : Marshal R C)
    (resp : Response R) (result : C) (mem : List Nat) (errno : Int)
    (h : ∀ r, resp ≠ .Success r) :
    Response.to_c m resp result mem errno =
      some (resp.to_status, result, mem, errno) := by
  cases resp with
  | Success r => exact absurd rfl (h r)
  | TryAgain => rfl
  | Unavail => rfl
  | NotFound => rfl
  | Return => rfl

/-- C5 counterexample: converting `NotFound` with the errno out-parameter
holding `42` leaves it at `42`; it is not set to the `ENOENT`
sentinel. -/
theorem non_success_errno_counterexample :
    Response.to_c (fun (_ : Unit) (c : Unit) b => MarshalRes.ok c b)
        (.NotFound : Response Unit) () [] 42 = some (.NotFound, (), [], 42) ∧
      (42 : Int) ≠ ENOENT := by
  exact ⟨rfl, by decide⟩

/-- C5 witness: the amended mapping at a concrete non-`Success` input. -/
theorem non_success_status_errno_unchanged_witness :
    Response.to_c (fun (_ : Unit) (c : Unit) b => MarshalRes.ok c b)
      (.Unavail : Response Unit) () [] 7 = some (.Unavail, (), [], 7) :=
  non_success_status_errno_unchanged _ _ _ _ _ (fun _ h => Response.noConfusion h)

/-- C7: lookup-by-name family dispatch. An explicit IPv4 (resp. IPv6)
selector queries the backend once with that family and returns its
result; the unspecified family queries IPv4 first, falls back to IPv6
exactly when IPv4 returned `NotFound` (returning the IPv6 result), and
returns any other IPv4 outcome as-is with no IPv6 attempt (the trace
component lists the backend calls made, in order). -/
theorem host_family_dispatch (hooks : List Nat → AddressFamily → Response Host)
    (name : List Nat) (h_errno : Int) :
    (hostDispatch hooks name AF_INET h_errno = (hooks name .IPv4, h_errno, [.IPv4])) ∧
    (hostDispatch hooks name AF_INET6 h_errno = (hooks name .IPv6, h_errno, [.IPv6])) ∧
    (hooks name .IPv4 = .NotFound →
      hostDispatch hooks name AF_UNSPEC h_errno =
        (hooks name .IPv6, h_errno, [.IPv4, .IPv6])) ∧
    (hooks name .IPv4 ≠ .NotFound →
      hostDispatch hooks name AF_UNSPEC h_errno =
        (hooks name .IPv4, h_errno, [.IPv4])) := by
  refine ⟨rfl, ?_, ?_, ?_⟩
  · norm_num [hostDispatch, AF_INET, AF_INET6]
  · intro h
    norm_num [hostDispatch, AF_INET, AF_INET6, AF_UNSPEC, h]
  · intro h
    cases hh : hooks name .IPv4 with
    | NotFound => exact absurd hh h
    | Success _ => norm_num [hostDispatch, AF_INET, AF_INET6, AF_UNSPEC, hh]
    | TryAgain => norm_num [hostDispatch, AF_INET, AF_INET6, AF_UNSPEC, hh]
    | Unavail => norm_num [hostDispatch, AF_INET, AF_INET6, AF_UNSPEC, hh]
    | Return => norm_num [hostDispatch, AF_INET, AF_INET6, AF_UNSPEC, hh]

/-- C7 witness: the two unspecified-family cases at concrete backends —
a backend answering `NotFound` for IPv4 triggers the IPv6 attempt; a
backend answering `Unavail` for IPv4 is returned as-is with a single
backend call. -/
theorem host_family_dispatch_witness :
    hostDispatch (fun _ _ => (.NotFound : Response Host)) [] AF_UNSPEC 7 =
        (.NotFound, 7, [.IPv4, .IPv6]) ∧
      hostDispatch (fun _ _ => (.Unavail : Response Host)) [] AF_UNSPEC 7 =
        (.Unavail, 7, [.IPv4]) :=
  ⟨(host_family_dispatch _ [] 7).2.2.1 rfl,
   (host_family_dispatch _ [] 7).2.2.2 (fun h => Response.noConfusion h)⟩

/-- C8: malformed input is mapped to `NotFound` with no backend call —
a passwd get-by-name key that is not valid UTF-8, a host get-by-name key
that is not valid UTF-8, and a host get-by-address whose `(len, family)`
pair is not `(4, AF_INET)` or `(16, AF_INET6)`; in each case the errno
out-parameter, the struct and the region are untouched and the backend
call trace is empty. -/
theorem malformed_input_notfound :
    (∀ (hooks : List Nat → Response Passwd) (name : List Nat) (result : CPasswd)
        (mem : List Nat) (errno : Int), validUtf8 name = false →
        getpwnam_r hooks name result mem errno =
          (some (.NotFound, result, mem, errno), [])) ∧
    (∀ (hooks : List Nat → AddressFamily → Response Host) (name : List Nat)
        (family : Int) (result : CHost) (mem : List Nat) (errno h_errno : Int),
        validUtf8 name = false →
        gethostbyname2_r hooks name family result mem errno h_errno =
          (some (.NotFound, result, mem, errno, h_errno), [])) ∧
    (∀ (hooks : IpAddr → Response Host) (addr : List Nat) (len : Nat)
        (format : Int) (result : CHost) (mem : List Nat) (errno h_errno : Int),
        ¬(len = 4 ∧ format = AF_INET) → ¬(len = 16 ∧ format = AF_INET6) →
        gethostbyaddr_r hooks addr len format result mem errno h_errno =
          (some (.NotFound, result, mem, errno, Herrno.netDbInternal), [])) := by
  refine ⟨?_, ?_, ?_⟩
  · intro hooks name result mem errno h
    simp [getpwnam_r, h, Response.to_c, Response.to_status]
  · intro hooks name family result mem errno h_errno h
    simp [gethostbyname2_r, h]
  · intro hooks addr len format result mem errno h_errno h4 h16
    simp [gethostbyaddr_r, h4, h16]

/-- C8 witness: the byte `0xFF` is not valid UTF-8 and a 5-byte IPv4
address is a length/family mismatch; each concrete call returns
`NotFound` with an empty backend-call trace. -/
theorem malformed_input_notfound_witness :
    getpwnam_r (fun _ => (.Unavail : Response Passwd)) [255] ⟨0,0,0,0,0,0,0⟩ [] 7 =
        (some (.NotFound, ⟨0,0,0,0,0,0,0⟩, [], 7), []) ∧
      gethostbyname2_r (fun _ _ => (.Unavail : Response Host)) [255] AF_INET
          ⟨0,0,0,0,0⟩ [] 7 9 = (some (.NotFound, ⟨0,0,0,0,0⟩, [], 7, 9), []) ∧
      gethostbyaddr_r (fun _ => (.Unavail : Response Host)) [1,2,3,4,5] 5 AF_INET
          ⟨0,0,0,0,0⟩ [] 7 9 =
        (some (.NotFound, ⟨0,0,0,0,0⟩, [], 7, Herrno.netDbInternal), []) :=
  ⟨malformed_input_notfound.1 _ _ _ _ _ (by decide),
   malformed_input_notfound.2.1 _ _ _ _ _ _ _ (by decide),
   malformed_input_notfound.2.2 _ _ _ _ _ _ _ _ (by decide) (by decide)⟩

/-- C3: after `open([r0, r1, r2])` successive `next()` calls return
`Success r0`, `Success r1`, `Success r2`, then `NotFound` on every call
from the fourth on; `close()` followed by `next()` returns `Unavail`;
and `open` always reports success, including on the empty list, whose
first `next()` then returns `NotFound`. -/
theorem cursor_enumeration_order (T : Type) (r0 r1 r2 : T)
    (s : NssIterator T) (n : Nat) (hn : 3 ≤ n) :
    ((s.openIt [r0, r1, r2]).2 = .Success) ∧
    (nthNextResp (s.openIt [r0, r1, r2]).1 0 = .Success r0) ∧
    (nthNextResp (s.openIt [r0, r1, r2]).1 1 = .Success r1) ∧
    (nthNextResp (s.openIt [r0, r1, r2]).1 2 = .Success r2) ∧
    (nthNextResp (s.openIt [r0, r1, r2]).1 n = .NotFound) ∧
    (((s.close).1.next).1 = .Unavail) ∧
    (∀ xs : List T, (s.openIt xs).2 = .Success) ∧
    (nthNextResp (s.openIt []).1 0 = .NotFound) := by
  refine ⟨rfl, rfl, rfl, rfl, ?_, rfl, fun xs => rfl, rfl⟩
  obtain ⟨hi, hx⟩ := iterNexts_items_index (s.openIt [r0, r1, r2]).1 n
  simp only [NssIterator.openIt] at hi hx
  simp only [nthNextResp, NssIterator.next, NssIterator.openIt, hi, hx]
  rw [List.getElem?_eq_none (by simpa using hn)]

/-- C3 witness: the enumeration protocol on the concrete list
`[10, 11, 12]` with the sixth `next()` call checked. -/
theorem cursor_enumeration_order_witness :
    (((NssIterator.new : NssIterator Nat).openIt [10, 11, 12]).2 = .Success) ∧
    (nthNextResp ((NssIterator.new : NssIterator Nat).openIt [10, 11, 12]).1 0 = .Success 10) ∧
    (nthNextResp ((NssIterator.new : NssIterator Nat).openIt [10, 11, 12]).1 1 = .Success 11) ∧
    (nthNextResp ((NssIterator.new : NssIterator Nat).openIt [10, 11, 12]).1 2 = .Success 12) ∧
    (nthNextResp ((NssIterator.new : NssIterator Nat).openIt [10, 11, 12]).1 5 = .NotFound) ∧
    ((((NssIterator.new : NssIterator Nat).close).1.next).1 = .Unavail) ∧
    (∀ xs : List Nat, ((NssIterator.new : NssIterator Nat).openIt xs).2 = .Success) ∧
    (nthNextResp ((NssIterator.new : NssIterator Nat).openIt []).1 0 = .NotFound) :=
  cursor_enumeration_order Nat 10 11 12 NssIterator.new 5 (by decide)

/-- C4 counterexample: the cursor state reached by `open([])` followed by
one `next()` has position `1` while the held sequence has length `0`, so
"position ≤ length of the held sequence" fails on a reachable state. -/
theorem cursor_position_bound_counterexample :
    ((runTrace ((NssIterator.new : NssIterator Nat), 0) [.openOp [], .nextOp]).1.index = 1) ∧
    (seqLen (runTrace ((NssIterator.new : NssIterator Nat), 0) [.openOp [], .nextOp]).1 = 0) ∧
    ¬ ((runTrace ((NssIterator.new : NssIterator Nat), 0) [.openOp [], .nextOp]).1.index ≤
        seqLen (runTrace ((NssIterator.new : NssIterator Nat), 0) [.openOp [], .nextOp]).1) := by
  decide

/-- C4 (amended): for every reachable cursor state (any trace of open,
next, previous, close from the initial closed state) the position is at
least 0 and at most the length of the held sequence *plus the number of
`next()` calls that returned a non-`Success` response* (the calls made on
an exhausted or closed cursor); the position can exceed the sequence
length by exactly those calls. -/
theorem cursor_position_bound_amended (T : Type) (ops : List (IterOp T)) :
    0 ≤ (runTrace ((NssIterator.new : NssIterator T), 0) ops).1.index ∧
    (runTrace ((NssIterator.new : NssIterator T), 0) ops).1.index ≤
      seqLen (runTrace ((NssIterator.new : NssIterator T), 0) ops).1 +
        (runTrace ((NssIterator.new : NssIterator T), 0) ops).2 :=
  ⟨Nat.zero_le _, runTrace_invariant ops (NssIterator.new, 0) (Nat.zero_le _)⟩

/-- C6: `previous()` decrements the position by exactly one unless it is
zero, in which case it stays zero; and on the enumeration path
(`_nss_authd_getpwent_r`), whenever the call's status is `TryAgain` the
cursor position after the call equals the position before it. -/
theorem previous_rewind :
    (∀ (T : Type) (it : NssIterator T),
      (it.index = 0 → it.previous.index = 0) ∧
      (it.index ≠ 0 → it.previous.index = it.index - 1)) ∧
    (∀ (it : NssIterator Passwd) (result : CPasswd) (mem : List Nat)
        (errno : Int) (out : NssStatus × CPasswd × List Nat × Int)
        (it2 : NssIterator Passwd),
      getpwent_r it result mem errno = (some out, it2) →
      out.1 = .TryAgain → it2.index = it.index) := by
  constructor
  · intro T it
    constructor
    · intro h
      simp [NssIterator.previous, h]
    · intro h
      simp [NssIterator.previous, Nat.pos_of_ne_zero h]
  · intro it result mem errno out it2 heq hTA
    rw [getpwent_r] at heq
    rcases h2 : Response.to_c Passwd.to_c (it.next).1 result mem errno with _ | ⟨st, c, m, e⟩ <;>
      rw [h2] at heq
    · exact Option.noConfusion (congrArg Prod.fst heq)
    · have hout : out = (st, c, m, e) :=
        (Option.some.injEq _ _ ▸ congrArg Prod.fst heq).symm
      have hst : st = .TryAgain := by rw [hout] at hTA; exact hTA
      have hit2 : it2 = if st = .TryAgain then (it.next).2.previous else (it.next).2 :=
        (congrArg Prod.snd heq).symm
      rw [hit2, if_pos hst]
      simp [NssIterator.next, NssIterator.previous]

/-- C6 witness: a concrete `getpwent_r` call whose marshaling hits the
capacity error — one record whose name needs 2 bytes against a 1-byte
buffer — ends in `TryAgain` and the cursor position is unchanged (`0`);
plus `previous()` at concrete positions `3` and `0`. -/
theorem previous_rewind_witness :
    ((NssIterator.mk (some [(⟨[120], [120], 1, 2, [120], [120], [120]⟩ : Passwd)]) 0 : NssIterator Passwd).index = 0) ∧
    ((NssIterator.mk (some ([] : List Nat)) 3).previous.index = 2) ∧
    ((NssIterator.mk (some ([] : List Nat)) 0).previous.index = 0) :=
  ⟨previous_rewind.2
      (NssIterator.mk (some [⟨[120], [120], 1, 2, [120], [120], [120]⟩]) 0)
      ⟨0, 0, 0, 0, 0, 0, 0⟩ [0] 7
      (.TryAgain, ⟨0, 0, 0, 0, 0, 0, 0⟩, [0], 34)
      (NssIterator.mk (some [⟨[120], [120], 1, 2, [120], [120], [120]⟩]) 0)
      (by decide) rfl,
   (previous_rewind.1 Nat _).2 (by decide),
   (previous_rewind.1 Nat _).1 rfl⟩

/-- C1: converting a `Success(record)` outcome marshals the record into
the (cleared) buffer; when marshaling succeeds the status is `Success`
with `errno = 0`; when it fails with the capacity error (the only
failure the passwd marshaler can produce, an OS-coded `ERANGE`) the
status is `TryAgain` and errno is `ERANGE`; when it fails for any other
reason (an error carrying no OS code) the status is `Unavail` and errno
is the generic `ENOENT`. -/
theorem toC_success_marshal_error_mapping :
    (∀ (p : Passwd) (result : CPasswd) (mem : List Nat) (errno : Int)
        (c : CPasswd) (b : CBuffer),
      Passwd.to_c p result (CBuffer.new mem).clear = .ok c b →
      Response.to_c Passwd.to_c (.Success p) result mem errno =
        some (.Success, c, b.data, 0)) ∧
    (∀ (p : Passwd) (result : CPasswd) (mem : List Nat) (errno : Int)
        (e : IoError) (c : CPasswd) (b : CBuffer),
      Passwd.to_c p result (CBuffer.new mem).clear = .err e c b →
      Response.to_c Passwd.to_c (.Success p) result mem errno =
        some (.TryAgain, c, b.data, ERANGE)) ∧
    (∀ (R C : Type) (m : Marshal R C) (r : R) (result : C) (mem : List Nat)
        (errno : Int) (c : C) (b : CBuffer),
      m r result (CBuffer.new mem).clear = .err noOsCodeError c b →
      Response.to_c m (.Success r) result mem errno =
        some (.Unavail, c, b.data, ENOENT)) := by
  refine ⟨?_, ?_, ?_⟩
  · intro p result mem errno c b h
    simp only [Response.to_c, h, Response.to_status]
  · intro p result mem errno e c b h
    have he := passwd_to_c_err p result _ e c b h
    rw [he] at h
    simp only [Response.to_c, h, capacityError, Response.to_status]
  · intro R C m r result mem errno c b h
    simp only [Response.to_c, h, noOsCodeError, Response.to_status]

/-- C1 witness: the three branches at concrete inputs — a record of
"x" strings marshaled into 16 zero bytes succeeds with `errno = 0`; the
same record against an empty buffer hits the capacity error and yields
`TryAgain`/`ERANGE`; a marshaler failing without an OS code yields
`Unavail`/`ENOENT`. -/
theorem toC_success_marshal_error_mapping_witness :
    (Response.to_c Passwd.to_c
        (.Success ⟨[120], [120], 1, 2, [120], [120], [120]⟩)
        (⟨0, 0, 0, 0, 0, 0, 0⟩ : CPasswd) (List.replicate 16 0) 7 =
      some (.Success, ⟨0, 2, 1, 2, 4, 6, 8⟩,
        [120, 0, 120, 0, 120, 0, 120, 0, 120, 0, 0, 0, 0, 0, 0, 0], 0)) ∧
    (Response.to_c Passwd.to_c
        (.Success ⟨[120], [120], 1, 2, [120], [120], [120]⟩)
        (⟨0, 0, 0, 0, 0, 0, 0⟩ : CPasswd) [] 7 =
      some (.TryAgain, ⟨0, 0, 0, 0, 0, 0, 0⟩, [], ERANGE)) ∧
    (Response.to_c (fun (_ : Unit) (c : Unit) b => MarshalRes.err noOsCodeError c b)
        (.Success () : Response Unit) () [] 7 =
      some (.Unavail, (), [], ENOENT)) :=
  ⟨toC_success_marshal_error_mapping.1 _ _ _ 7 ⟨0, 2, 1, 2, 4, 6, 8⟩
      ⟨[120, 0, 120, 0, 120, 0, 120, 0, 120, 0, 0, 0, 0, 0, 0, 0], 10, 6⟩ (by decide),
   toC_success_marshal_error_mapping.2.1 _ _ _ 7 capacityError
      ⟨0, 0, 0, 0, 0, 0, 0⟩ ⟨[], 0, 0⟩ (by decide),
   toC_success_marshal_error_mapping.2.2 Unit Unit _ () () [] 7 () ⟨[], 0, 0⟩
      (by decide)⟩

/-- C2 counterexample: `write_str` does not write the terminating null
byte — on a buffer holding `[7,7,7]` writing the one-byte string `[65]`
succeeds but leaves the terminator slot (offset 1) holding `7`, not `0`
(the source only `memcpy`s the string's bytes and steps over the
terminator position, relying on the earlier `clear()`); and on a string
containing an interior NUL byte the call panics instead of failing with
a capacity error, even though capacity is ample. -/
theorem write_str_claim_counterexample :
    (CBuffer.write_str ⟨[7, 7, 7], 0, 3⟩ [65] = .ok 0 ⟨[65, 7, 7], 2, 1⟩) ∧
    ((⟨[65, 7, 7], 2, 1⟩ : CBuffer).data[1]? = some 7) ∧
    (CBuffer.write_str ⟨[0, 0, 0], 0, 3⟩ [0] = .panic) := by
  decide

/-- C2 (amended): for every string `s` *without interior NUL bytes* and
every buffer state: `write_str(s)` fails with the capacity error iff
fewer than `len(s)+1` bytes remain free, and on failure the buffer
(position, free count and contents) is unchanged; on success it returns
the start offset (the old position), advances position and free count by
`len(s)+1`, copies exactly the bytes of `s` at the old position, and
leaves every other byte — including the stepped-over terminator slot,
which is null only because the entry points `clear()` the region first —
unchanged. A string with an interior NUL byte instead panics. -/
theorem write_str_behavior (s : List Nat) (b : CBuffer) (hnul : 0 ∉ s) :
    (b.free < s.length + 1 → b.write_str s = .err capacityError b) ∧
    (s.length + 1 ≤ b.free →
      ∃ b', b.write_str s = .ok b.pos b' ∧
        b'.pos = b.pos + (s.length + 1) ∧
        b'.free = b.free - (s.length + 1) ∧
        b'.data.length = b.data.length ∧
        (∀ i, i < s.length → b.pos + i < b.data.length →
          b'.data[b.pos + i]? = s[i]?) ∧
        (∀ j, j < b.pos ∨ b.pos + s.length ≤ j → b'.data[j]? = b.data[j]?)) := by
  constructor
  · intro h
    simp only [CBuffer.write_str]
    rw [if_neg hnul, if_pos h]
  · intro h
    have hlt : ¬ b.free < s.length + 1 := Nat.not_lt.mpr h
    refine ⟨⟨writeBytes b.data b.pos s, b.pos + (s.length + 1),
        b.free - (s.length + 1)⟩, ?_, rfl, rfl,
      writeBytes_length s b.data b.pos, ?_, ?_⟩
    · simp only [CBuffer.write_str]
      rw [if_neg hnul, if_neg hlt]
    · intro i hi hd
      exact writeBytes_getElem_in s b.data b.pos i hi hd
    · intro j hj
      rcases hj with hj | hj
      · exact writeBytes_getElem_lt s b.data b.pos j hj
      · exact writeBytes_getElem_ge s b.data b.pos j hj

/-- C2 witness: the capacity-failure branch at a concrete input — one
free byte is too few for a one-byte string plus terminator, and the
buffer is returned unchanged. -/
theorem write_str_behavior_witness :
    CBuffer.write_str ⟨[9], 0, 1⟩ [65] = .err capacityError ⟨[9], 0, 1⟩ :=
  (write_str_behavior [65] ⟨[9], 0, 1⟩ (by decide)).1 (by decide)

/-- C9: the code violates the claim — a backend record whose string
field contains an interior NUL byte makes `write_str` panic
(`CString::new(..).expect(..)` in the source), and the panic escapes
`Response::to_c` (outcome `none`), aborting the hosting process instead
of returning a status code and errno. -/
theorem write_str_interior_nul_panics :
    (CBuffer.write_str ⟨List.replicate 8 0, 0, 8⟩ [97, 0, 98] = .panic) ∧
    (Response.to_c Passwd.to_c
        (.Success ⟨[97, 0, 98], [120], 0, 0, [120], [120], [120]⟩)
        (⟨0, 0, 0, 0, 0, 0, 0⟩ : CPasswd) (List.replicate 8 0) 0 = none) := by
  decide

end Authd
